import Mathlib

/-!
Verification of the chat-service core (protocol.py, storage.py, server.py,
replication.py) against its specification.

Shallow embedding conventions:
* Python `str` values are modelled as Lean `String`; `str.encode()` (UTF-8)
  is modelled as the sequence of code points (`strBytes`), which is injective
  on all strings and byte-identical on ASCII data.
* The Python `json` library byte layer is modelled at the JSON-value level
  (`JValue`) for `JSONProtocol`; `json.dumps`/`json.loads` of a list of
  strings (used by `CustomProtocol` for `msg_ids`) are modelled by an
  executable serializer/parser pair over code points.
* `uuid.uuid4()` is modelled as a counter-derived identifier (`freshId`),
  assumed distinct from every identifier already present, which is the
  defining property of a fresh uuid.
* Fallible Python code (uncaught exceptions such as `KeyError` or
  `UnboundLocalError`) is modelled with `Option`: `none` means the handler
  raised instead of returning a reply.
-/

namespace Chat

/-- protocol.py `Message` dataclass: cmd, src, to, body, error, msg_ids
(default `None`, modelled as `Option`), limit (default 0). -/
structure Message where
  cmd : String
  src : String := ""
  «to» : String := ""
  body : String := ""
  error : Bool := false
  msg_ids : Option (List String) := none
  limit : Nat := 0
deriving DecidableEq

/-- JSON values, the output of `json.loads` / input of `json.dumps`,
restricted to the shapes the protocol uses. -/
inductive JValue where
  | jstr : String → JValue
  | jnum : Nat → JValue
  | jbool : Bool → JValue
  | jarr : List JValue → JValue
  | jobj : List (String × JValue) → JValue

/-- First-match association-list lookup (Python `dict` access order for the
shallow embedding of dict reads). -/
def alookup {α : Type _} : List (String × α) → String → Option α
  | [], _ => none
  | (k, v) :: rest, key => if k = key then some v else alookup rest key

/-- Association-list update: replace the first binding of the key, or append
a new binding (Python `d[k] = v`). -/
def aset {α : Type _} : List (String × α) → String → α → List (String × α)
  | [], k, v => [(k, v)]
  | (k', v') :: rest, k, v =>
      if k' = k then (k, v) :: rest else (k', v') :: aset rest k v

/-- `parsed.get(key, default)` on a JSON object. -/
def jget (v : JValue) (key : String) : Option JValue :=
  match v with
  | .jobj fields => alookup fields key
  | _ => none

/-- Extract a list of strings from a JSON array of strings. -/
def jstrList : List JValue → Option (List String)
  | [] => some []
  | .jstr s :: rest => (jstrList rest).map (s :: ·)
  | _ => none

namespace JSONProtocol

/-- protocol.py `JSONProtocol.encode`: builds the JSON object with all seven
keys; `msg_ids` of `None` is encoded as the empty list. -/
def encode (m : Message) : JValue :=
  .jobj [("cmd", .jstr m.cmd), ("src", .jstr m.src), ("to", .jstr m.«to»),
         ("body", .jstr m.body), ("error", .jbool m.error),
         ("msg_ids", .jarr ((m.msg_ids.getD []).map .jstr)),
         ("limit", .jnum m.limit)]

/-- protocol.py `JSONProtocol.decode`: `parsed['cmd']` (raises on a missing
key, modelled by `none`), the remaining fields via `.get` with defaults;
`msg_ids` defaults to `None` when the key is absent. -/
def decode (v : JValue) : Option Message :=
  match jget v "cmd" with
  | some (.jstr cmd) =>
    let src := match jget v "src" with | some (.jstr s) => s | _ => ""
    let «to» := match jget v "to" with | some (.jstr s) => s | _ => ""
    let body := match jget v "body" with | some (.jstr s) => s | _ => ""
    let error := match jget v "error" with | some (.jbool b) => b | _ => false
    let limit := match jget v "limit" with | some (.jnum n) => n | _ => 0
    match jget v "msg_ids" with
    | none => some ⟨cmd, src, «to», body, error, none, limit⟩
    | some (.jarr xs) =>
      match jstrList xs with
      | some ids => some ⟨cmd, src, «to», body, error, some ids, limit⟩
      | none => none
    | some _ => none
  | _ => none

end JSONProtocol

/-- Python `str.encode()`, modelled as the code-point sequence (injective on
all strings, byte-identical on ASCII). -/
def strBytes (s : String) : List Nat := s.data.map Char.toNat

/-- Python `bytes.decode()` on the model above. -/
def bytesStr (l : List Nat) : String := String.mk (l.map Char.ofNat)

/-- The `"` character. -/
def quoteChar : Char := Char.ofNat 34

/-- The `\` character. -/
def backslashChar : Char := Char.ofNat 92

/-- JSON string escaping of one character as `json.dumps` performs it for
the quote and backslash characters (the only ones occurring in the ids the
repository generates; control/non-ASCII escapes are not modelled). -/
def escChar (c : Char) : List Char :=
  if c = quoteChar then [backslashChar, quoteChar]
  else if c = backslashChar then [backslashChar, backslashChar]
  else [c]

/-- A JSON string literal for `s`. -/
def jstrQuote (s : String) : String :=
  String.mk (quoteChar :: (s.data.flatMap escChar ++ [quoteChar]))

/-- `", ".join`, the default `json.dumps` list separator. -/
def joinComma : List String → String
  | [] => ""
  | [x] => x
  | x :: y :: rest => x ++ ", " ++ joinComma (y :: rest)

/-- `json.dumps` on a list of strings. -/
def jdumpStrs (l : List String) : String :=
  "[" ++ joinComma (l.map jstrQuote) ++ "]"

/-- Skip blanks (JSON whitespace emitted by the `", "` separator). -/
def skipSp : List Char → List Char
  | [] => []
  | c :: rest => if c = Char.ofNat 32 then skipSp rest else c :: rest

/-- Parse a JSON string body after the opening quote: returns the unescaped
contents and the remainder after the closing quote. -/
def parseStrBody : List Char → Option (List Char × List Char)
  | [] => none
  | c :: rest =>
    if c = quoteChar then some ([], rest)
    else if c = backslashChar then
      match rest with
      | [] => none
      | e :: rest2 =>
        if e = quoteChar ∨ e = backslashChar then
          match parseStrBody rest2 with
          | some (s, r) => some (e :: s, r)
          | none => none
        else none
    else
      match parseStrBody rest with
      | some (s, r) => some (c :: s, r)
      | none => none

/-- Parse the items of a non-empty JSON array of strings, consuming the
closing bracket and requiring end of input (fuel-indexed recursion). -/
def parseItems : Nat → List Char → Option (List String)
  | 0, _ => none
  | fuel + 1, cs =>
    match cs with
    | [] => none
    | c :: rest =>
      if c = quoteChar then
        match parseStrBody rest with
        | some (s, r) =>
          match skipSp r with
          | [] => none
          | c2 :: r2 =>
            if c2 = Char.ofNat 93 then
              if skipSp r2 = [] then some [String.mk s] else none
            else if c2 = Char.ofNat 44 then
              match parseItems fuel (skipSp r2) with
              | some l => some (String.mk s :: l)
              | none => none
            else none
        | none => none
      else none

/-- `json.loads` on the serialized form of a list of strings. -/
def jloadStrs (cs : List Char) : Option (List String) :=
  match skipSp cs with
  | [] => none
  | c :: rest =>
    if c = Char.ofNat 91 then
      match skipSp rest with
      | [] => none
      | c2 :: r2 =>
        if c2 = Char.ofNat 93 then
          if skipSp r2 = [] then some [] else none
        else parseItems (cs.length) (c2 :: r2)
    else none

/-- `int.to_bytes(1, 'big')`: raises `OverflowError` outside `[0, 255]`. -/
def toBytes1 (n : Nat) : Option (List Nat) :=
  if n < 256 then some [n] else none

/-- `int.to_bytes(2, 'big')`: raises `OverflowError` outside `[0, 65535]`. -/
def toBytes2 (n : Nat) : Option (List Nat) :=
  if n < 65536 then some [n / 256, n % 256] else none

/-- `int.from_bytes(_, 'big')` (tolerates short slices, like Python). -/
def fromBytes (l : List Nat) : Nat := l.foldl (fun a b => a * 256 + b) 0

namespace CustomProtocol

/-- protocol.py `CustomProtocol.encode`: length-prefixed fields
`len1(cmd) cmd len1(src) src len1(to) to len2(body) body errorByte
len2(ids) ids limit16`, where `ids` is `json.dumps` of `msg_ids` (`None`
encoded as the empty list). -/
def encode (m : Message) : Option (List Nat) := do
  let cmdB := strBytes m.cmd
  let srcB := strBytes m.src
  let toB := strBytes m.«to»
  let bodyB := strBytes m.body
  let idsB := strBytes (jdumpStrs (m.msg_ids.getD []))
  let cmdLen ← toBytes1 cmdB.length
  let srcLen ← toBytes1 srcB.length
  let toLen ← toBytes1 toB.length
  let bodyLen ← toBytes2 bodyB.length
  let idsLen ← toBytes2 idsB.length
  let limitB ← toBytes2 m.limit
  some (cmdLen ++ cmdB ++ srcLen ++ srcB ++ toLen ++ toB ++
        bodyLen ++ bodyB ++ [if m.error then 1 else 0] ++
        idsLen ++ idsB ++ limitB)

/-- protocol.py `CustomProtocol.decode`: sequential positional reads,
modelled as prefix consumption; a failing single-byte read or a `json.loads`
failure is an exception (`none`). `msg_ids` is `None` exactly when the ids
length field is zero. -/
def decode (data : List Nat) : Option Message :=
  match data with
  | [] => none
  | cmd_len :: r1 =>
    let cmd := bytesStr (r1.take cmd_len)
    match r1.drop cmd_len with
    | [] => none
    | src_len :: r2 =>
      let src := bytesStr (r2.take src_len)
      match r2.drop src_len with
      | [] => none
      | to_len :: r3 =>
        let toS := bytesStr (r3.take to_len)
        let body_len := fromBytes (r3.drop to_len |>.take 2)
        let r4 := r3.drop to_len |>.drop 2
        let body := bytesStr (r4.take body_len)
        match r4.drop body_len with
        | [] => none
        | e :: r5 =>
          let error := e == 1
          let ids_len := fromBytes (r5.take 2)
          let r6 := r5.drop 2
          let idsB := r6.take ids_len
          let limit := fromBytes (r6.drop ids_len |>.take 2)
          if ids_len > 0 then
            match jloadStrs (idsB.map Char.ofNat) with
            | some ids => some ⟨cmd, src, toS, body, error, some ids, limit⟩
            | none => none
          else some ⟨cmd, src, toS, body, error, none, limit⟩

end CustomProtocol

/-- One entry of a user's message queue: the `(msg_id, from_username,
content)` triples storage.py keeps in `messages_<user>.txt`. -/
structure QMsg where
  id : String
  sender : String
  content : String
deriving DecidableEq

/-- storage.py `Storage` persistent state: the users file (username →
password), the per-user message files, and a counter backing the modelled
`uuid.uuid4()` supply. -/
structure Storage where
  users : List (String × String)
  queues : List (String × List QMsg)
  nextId : Nat
deriving DecidableEq

/-- `uuid.uuid4()` modelled as a counter-derived identifier; distinct for
distinct counters and distinct from every id a sync payload carries. -/
def freshId (n : Nat) : String := "uuid-fresh-" ++ toString n

/-- storage.py `_read_messages`: a missing file reads as the empty list. -/
def get_messages (s : Storage) (username : String) : List QMsg :=
  (alookup s.queues username).getD []

/-- storage.py `user_exists`. -/
def user_exists (s : Storage) (username : String) : Bool :=
  (alookup s.users username).isSome

/-- storage.py `add_user`: insert or overwrite the binding and write back. -/
def add_user (s : Storage) (username password : String) : Storage :=
  { s with users := aset s.users username password }

/-- storage.py `add_message`: generate a fresh uuid (note: the id is
generated here, not taken from the caller), append the triple to the
recipient's queue, return the new id. -/
def add_message (s : Storage) (to_username from_username content : String) :
    Storage × String :=
  let msg_id := freshId s.nextId
  let messages := get_messages s to_username
  ({ s with
      queues := aset s.queues to_username (messages ++ [⟨msg_id, from_username, content⟩]),
      nextId := s.nextId + 1 }, msg_id)

/-- storage.py `delete_user`: remove the user from the users file, remove
their message file, then for every remaining user filter out queued messages
whose sender is the deleted user (writing back only on change, which is
state-equivalent to the unconditional filter). -/
def delete_user (s : Storage) (username : String) : Storage :=
  let users' := s.users.filter (fun p => p.1 ≠ username)
  let queues₁ := s.queues.filter (fun p => p.1 ≠ username)
  let queues₂ := queues₁.map (fun p =>
    if p.1 ∈ users'.map Prod.fst then
      (p.1, p.2.filter (fun m => m.sender ≠ username))
    else p)
  { users := users', queues := queues₂, nextId := s.nextId }

/-- storage.py `delete_messages`: drop queued messages whose id is listed;
write back only when something changed. -/
def delete_messages (s : Storage) (username : String) (msg_ids : List String) :
    Storage :=
  let messages := get_messages s username
  let filtered := messages.filter (fun m => m.id ∉ msg_ids)
  if filtered.length ≠ messages.length then
    { s with queues := aset s.queues username filtered }
  else s

/-- The two `SYNC_DATA` payload kinds of replication.py. -/
inductive SyncPayload where
  | users : List (String × String) → SyncPayload
  | messages : List (String × List QMsg) → SyncPayload

/-- replication.py `_handle_sync_data`: for `USERS`, add each user missing
locally; for `MESSAGES`, compute the existing ids of each recipient once and
insert via `storage.add_message` each synced message whose id is not among
them (`add_message` itself generates the stored id). -/
def handle_sync_data (s : Storage) : SyncPayload → Storage
  | .users us =>
      us.foldl (fun st p =>
        if user_exists st p.1 then st else add_user st p.1 p.2) s
  | .messages data =>
      data.foldl (fun st p =>
        let existing_msg_ids := (get_messages st p.1).map (·.id)
        p.2.foldl (fun st2 m =>
          if m.id ∈ existing_msg_ids then st2
          else (add_message st2 p.1 m.sender m.content).1) st) s

/-- Replication-relevant events a handler performs, in program order:
a local Persistent Store apply of a mutation type, or a `DATA_UPDATE`
broadcast of a mutation type (`replication.broadcast_data_update`). -/
inductive RepEvent where
  | localApply : String → RepEvent
  | broadcast : String → RepEvent
deriving DecidableEq

/-- The ordering property of a handler's event trace: every `DATA_UPDATE`
broadcast of a mutation type is preceded by a local apply of that type. -/
def broadcastAfterApply (tr : List RepEvent) : Prop :=
  ∀ pre post t, tr = pre ++ RepEvent.broadcast t :: post →
    RepEvent.localApply t ∈ pre

/-- server.py `handle_deliver`'s unseen-filter loop: collect messages whose
id is not in the seen set; when `limit == 0` (`addSeen`), each collected id
is added to the seen set as the loop runs. -/
def scanUnseen (addSeen : Bool) : List QMsg → List String →
    List QMsg × List String
  | [], seen => ([], seen)
  | m :: rest, seen =>
    if m.id ∈ seen then scanUnseen addSeen rest seen
    else
      (m :: (scanUnseen addSeen rest (if addSeen then seen ++ [m.id] else seen)).1,
       (scanUnseen addSeen rest (if addSeen then seen ++ [m.id] else seen)).2)

/-- The `deliver` frame written per emitted message. -/
def deliverFrame (m : QMsg) : Message :=
  { cmd := "deliver", src := m.sender, body := m.content,
    msg_ids := some [m.id] }

/-- Result of `handle_deliver`: frames written to the client socket, the
terminal reply, the resulting store, the server-wide `client_seen_messages`
map, and the replication events performed. -/
structure DeliverOut where
  emitted : List Message
  reply : Message
  storage : Storage
  seen : List (String × List String)
  events : List RepEvent
deriving DecidableEq

/-- server.py `handle_deliver`. `seen` is `self.client_seen_messages`, an
attribute of the `ChatServer` object keyed by username. `role1`/`trans1` are
the server state and transitioning flag observed at entry; `role2`/`trans2`
are the values re-read by the double-check before deletion (they may differ
under concurrency). -/
def handle_deliver (storage : Storage) (seen : List (String × List String))
    (username : String) (limit : Nat)
    (role1 : String) (trans1 : Bool) (role2 : String) (trans2 : Bool) :
    DeliverOut :=
  if ¬ user_exists storage username then
    ⟨[], { cmd := "deliver", body := "User not found", error := true },
     storage, seen, []⟩
  else if role1 ≠ "PRIMARY" then
    ⟨[], { cmd := "deliver",
           body := "Cannot deliver messages, server is in " ++ role1 ++ " state",
           error := true }, storage, seen, []⟩
  else if trans1 then
    ⟨[], { cmd := "deliver",
           body := "Server is in transition, please try again later",
           error := true }, storage, seen, []⟩
  else
    let messages := get_messages storage username
    let seenU := (alookup seen username).getD []
    let (unseen, seen1) := scanUnseen (limit == 0) messages seenU
    let limitN := if limit > 0 then limit else unseen.length
    let messages_to_send := unseen.take limitN
    let emitted := messages_to_send.map deliverFrame
    if limit > 0 then
      if role2 ≠ "PRIMARY" ∨ trans2 then
        ⟨emitted,
         { cmd := "deliver",
           body := "Delivered " ++ toString messages_to_send.length ++
                   " messages, but server state changed - messages preserved" },
         storage, aset seen username seenU, []⟩
      else
        let msg_ids := messages_to_send.map (·.id)
        if msg_ids = [] then
          ⟨emitted,
           { cmd := "deliver",
             body := "Delivered " ++ toString messages_to_send.length ++ " messages" },
           storage, aset seen username seenU, []⟩
        else
          ⟨emitted,
           { cmd := "deliver",
             body := "Delivered " ++ toString messages_to_send.length ++ " messages" },
           delete_messages storage username msg_ids,
           aset seen username (seenU ++ msg_ids),
           [.broadcast "DELETE_MESSAGES", .localApply "DELETE_MESSAGES"]⟩
    else
      ⟨emitted,
       { cmd := "deliver",
         body := "Delivered " ++ toString messages_to_send.length ++ " messages" },
       storage, aset seen username seen1, []⟩

/-- server.py `handle_client`'s `finally` clause when a session ends: the
username is removed from `current_users`; `client_seen_messages` is not
touched. -/
def session_cleanup (current : List String)
    (seen : List (String × List String)) (username : String) :
    List String × List (String × List String) :=
  (current.filter (· ≠ username), seen)

/-- Result of `handle_create`: reply, store, in-memory users, sessions,
replication events. -/
structure CreateOut where
  reply : Message
  storage : Storage
  users : List (String × String)
  current : List String
  events : List RepEvent

/-- server.py `handle_create`: reject a duplicate username, otherwise add
the user to the store and the in-memory map, bind the session, and when the
role read afterwards is PRIMARY broadcast `ADD_USER`. -/
def handle_create (storage : Storage) (users : List (String × String))
    (current : List String) (username password : String) (role : String) :
    CreateOut :=
  if user_exists storage username then
    ⟨{ cmd := "create", body := "Username already exists", error := true },
     storage, users, current, []⟩
  else
    ⟨{ cmd := "create", body := "Account created", «to» := username },
     add_user storage username password,
     aset users username password,
     (if username ∈ current then current else current ++ [username]),
     .localApply "ADD_USER" ::
       (if role = "PRIMARY" then [.broadcast "ADD_USER"] else [])⟩

/-- Result of `handle_send`: reply, store, replication events, and the
`deliver` frames written inline to the recipient's socket. -/
structure SendOut where
  reply : Message
  storage : Storage
  events : List RepEvent
  inlineSent : List Message

/-- server.py `handle_send`: validate, generate the broadcast uuid, refuse
while transitioning, and on PRIMARY broadcast `ADD_MESSAGE` first; then
attempt inline delivery to an online recipient (`inlineOk` is whether the
socket write succeeds), persisting via `add_message` only when the recipient
is offline or the inline write fails. -/
def handle_send (storage : Storage) (current : List String)
    (username recipient content : String) (trans : Bool) (role : String)
    (inlineOk : Bool) : SendOut :=
  if content = "" ∨ recipient = "" then
    ⟨{ cmd := "send", body := "Message content and recipient are required",
       error := true }, storage, [], []⟩
  else if ¬ user_exists storage recipient then
    ⟨{ cmd := "send", body := "Recipient not found", error := true },
     storage, [], []⟩
  else
    let msg_id := freshId storage.nextId
    let storage₀ : Storage := { storage with nextId := storage.nextId + 1 }
    if trans then
      ⟨{ cmd := "send", body := "Server is in transition, please try again later",
         error := true }, storage₀, [], []⟩
    else if role = "PRIMARY" then
      if recipient ∈ current then
        if inlineOk then
          ⟨{ cmd := "send", body := "Message sent successfully" }, storage₀,
           [.broadcast "ADD_MESSAGE"],
           [{ cmd := "deliver", src := username, body := content,
              msg_ids := some [msg_id] }]⟩
        else
          ⟨{ cmd := "send", body := "Message sent successfully" },
           (add_message storage₀ recipient username content).1,
           [.broadcast "ADD_MESSAGE", .localApply "ADD_MESSAGE"], []⟩
      else
        ⟨{ cmd := "send", body := "Message sent successfully" },
         (add_message storage₀ recipient username content).1,
         [.broadcast "ADD_MESSAGE", .localApply "ADD_MESSAGE"], []⟩
    else
      ⟨{ cmd := "send",
         body := "Cannot send messages, server is in " ++ role ++ " state",
         error := true }, storage₀, [], []⟩

/-- Result of `handle_delete` / `handle_delete_messages`. -/
structure DeleteOut where
  reply : Message
  storage : Storage
  users : List (String × String)
  current : List String
  events : List RepEvent

/-- server.py `handle_delete`: cascade-delete via `storage.delete_user`,
update the in-memory maps, then broadcast `DELETE_USER` if the re-read state
is still PRIMARY and not transitioning. -/
def handle_delete (storage : Storage) (users : List (String × String))
    (current : List String) (username : String) (trans : Bool) (role : String)
    (role2 : String) (trans2 : Bool) : DeleteOut :=
  if ¬ user_exists storage username then
    ⟨{ cmd := "delete", body := "User does not exist", error := true },
     storage, users, current, []⟩
  else if trans then
    ⟨{ cmd := "delete", body := "Server is in transition, please try again later",
       error := true }, storage, users, current, []⟩
  else if role ≠ "PRIMARY" then
    ⟨{ cmd := "delete", body := "Cannot delete account, server is not PRIMARY",
       error := true }, storage, users, current, []⟩
  else
    ⟨{ cmd := "delete", body := "Account deleted" },
     delete_user storage username,
     users.filter (fun p => p.1 ≠ username),
     current.filter (· ≠ username),
     .localApply "DELETE_USER" ::
       (if role2 = "PRIMARY" ∧ ¬ trans2 then [.broadcast "DELETE_USER"] else [])⟩

/-- server.py `handle_delete_messages`: validate the id list, then broadcast
`DELETE_MESSAGES` before the final state check and the local deletion. -/
def handle_delete_messages (storage : Storage) (username : String)
    (msg_ids : Option (List String)) (role : String) (trans : Bool)
    (role2 : String) (trans2 : Bool) : Message × Storage × List RepEvent :=
  if msg_ids = none ∨ msg_ids = some [] then
    ({ cmd := "delete_msgs", body := "No message IDs provided", error := true },
     storage, [])
  else if role ≠ "PRIMARY" then
    ({ cmd := "delete_msgs", body := "Cannot delete messages, server is not PRIMARY",
       error := true }, storage, [])
  else if trans then
    ({ cmd := "delete_msgs", body := "Server is in transition, please try again later",
       error := true }, storage, [])
  else if role2 ≠ "PRIMARY" ∨ trans2 then
    ({ cmd := "delete_msgs",
       body := "Server state changed during processing, messages preserved",
       error := true }, storage, [.broadcast "DELETE_MESSAGES"])
  else
    ({ cmd := "delete_msgs", body := "Messages deleted successfully" },
     delete_messages storage username (msg_ids.getD []),
     [.broadcast "DELETE_MESSAGES", .localApply "DELETE_MESSAGES"])

/-- server.py `handle_login`: existence is checked against the Persistent
Store, the password against the in-memory `self.users` map (a `KeyError`
when they disagree is `none`); on success the session is bound and the reply
reports the unread count. No check of an existing active session is made. -/
def handle_login (storage : Storage) (users : List (String × String))
    (current : List String) (username password : String) :
    Option (Message × List String) :=
  if ¬ user_exists storage username then
    some ({ cmd := "login", body := "Username/Password error", error := true },
          current)
  else
    match alookup users username with
    | none => none
    | some pw =>
      if pw ≠ password then
        some ({ cmd := "login", body := "Username/Password error", error := true },
              current)
      else
        some ({ cmd := "login",
                body := "Login successful. You have " ++
                        toString (get_messages storage username).length ++
                        " unread messages.",
                «to» := username },
              if username ∈ current then current else current ++ [username])

/-- server.py `handle_logoff`: with an active session, unbind it and reply;
without one, the local variable `response` is never assigned and the
`return response` raises `UnboundLocalError` (`none`: no reply frame). -/
def handle_logoff (current : List String) (username : String) :
    Option (Message × List String) :=
  if username ∈ current then
    some ({ cmd := "logoff", body := "Logged out successfully" },
          current.filter (· ≠ username))
  else none

/-- replication.py `wait_for_acks`: sleeps, then compares the constant one
self-ack against the majority threshold computed from `self.backups`; it
takes no acknowledgment input at all. -/
def wait_for_acks (backups : List String) : Bool :=
  let total_nodes := backups.length + 1
  let majority := total_nodes / 2 + 1
  (1 ≥ majority) || (total_nodes ≤ 1)

/-- replication.py `ReplicationClient` connection state: the flag and the
FIFO message queue (head = front of the `queue.Queue`). -/
structure RClient where
  connected : Bool
  queue : List Message
deriving DecidableEq

/-- replication.py `_process_queued_messages`: drain the queue head-first;
a failing send puts the in-flight message back with `queue.put` (appending
at the tail) and the re-raised exception stops the flush. Returns the
frames written and the remaining queue. `sendOk` models which socket writes
succeed. -/
def process_queued (sendOk : Message → Bool) :
    List Message → List Message × List Message
  | [] => ([], [])
  | m :: rest =>
    if sendOk m then
      let (sent, remaining) := process_queued sendOk rest
      (m :: sent, remaining)
    else ([], rest ++ [m])

/-- replication.py `connect` (backoff timing abstracted away): when already
connected do nothing; otherwise, if some server accepts (`canConnect`), mark
connected and flush the queue; else stay disconnected. Returns the new
state, the success flag, and the frames written during the flush. -/
def connect (c : RClient) (canConnect : Bool) (sendOk : Message → Bool) :
    RClient × Bool × List Message :=
  if c.connected then (c, true, [])
  else if canConnect then
    let (sent, remaining) := process_queued sendOk c.queue
    (⟨true, remaining⟩, true, sent)
  else (c, false, [])

/-- replication.py `send_msg`: when disconnected, queue the message at the
tail and attempt a reconnect (which flushes), returning false; when
connected, encode and write, returning true, or on a write error mark
disconnected, queue the message, attempt a reconnect, and return false.
The second component is the new state, the third the frames written. -/
def send_msg (c : RClient) (m : Message) (canConnect : Bool)
    (sendOk : Message → Bool) : Bool × RClient × List Message :=
  if ¬ c.connected then
    let c₁ : RClient := ⟨false, c.queue ++ [m]⟩
    let (c₂, _, sent) := connect c₁ canConnect sendOk
    (false, c₂, sent)
  else if sendOk m then (true, c, [m])
  else
    let c₁ : RClient := ⟨false, c.queue ++ [m]⟩
    let (c₂, _, sent) := connect c₁ canConnect sendOk
    (false, c₂, sent)

/-- The message of the repository's own round-trip test
`test_json_protocol_encoding_decoding` (all defaults, so `msg_ids = None`). -/
def c1msg : Message := { cmd := "send", src := "user1", «to» := "user2", body := "Hello" }

/-- A store holding user `bob` with an empty queue. -/
def c2store : Storage := ⟨[("bob", "pw")], [], 0⟩

/-- A `SYNC_DATA{MESSAGES}` payload carrying one message for `bob`. -/
def c2sync : SyncPayload := .messages [("bob", [⟨"id1", "alice", "hi"⟩])]

/-- A concrete two-user store for the C3 witness. -/
def c3store : Storage :=
  ⟨[("alice", "a"), ("bob", "b")],
   [("alice", [⟨"m0", "bob", "x"⟩]),
    ("bob", [⟨"m1", "alice", "hi"⟩, ⟨"m2", "bob", "y"⟩])], 5⟩

/-- A store holding user `alice` with password `pw` and no messages. -/
def c7store : Storage := ⟨[("alice", "pw")], [], 0⟩

def c4store : Storage := ⟨[("bob", "pw")], [("bob", [⟨"m1", "alice", "hi"⟩])], 3⟩

/-- The messages in `username`'s queue not yet recorded in the server-wide
seen map: the pop/peek selection set of `handle_deliver`. -/
def unseenOf (storage : Storage) (seen : List (String × List String))
    (username : String) : List QMsg :=
  (get_messages storage username).filter
    (fun m => m.id ∉ (alookup seen username).getD [])

def c5store : Storage :=
  ⟨[("bob", "pw")],
   [("bob", [⟨"m1", "alice", "a"⟩, ⟨"m2", "alice", "b"⟩, ⟨"m3", "alice", "c"⟩])], 9⟩

def c6store : Storage := ⟨[("alice", "a"), ("bob", "b")], [], 0⟩

def c9m1 : Message := { cmd := "a" }

def c9m2 : Message := { cmd := "b" }

/-! ## Theorems -/

theorem alookup_cons {α : Type _} (x : String × α) (rest : List (String × α))
    (key : String) :
    alookup (x :: rest) key = if x.1 = key then some x.2 else alookup rest key := by
  rfl

theorem alookup_filter_none {α : Type _} (pr : String × α → Bool)
    (l : List (String × α)) (u : String)
    (hpr : ∀ p, pr p = true → p.1 ≠ u) :
    alookup (l.filter pr) u = none := by
  induction l with
  | nil => rfl
  | cons x rest ih =>
    rw [List.filter_cons]
    cases hpx : pr x with
    | false => simpa using ih
    | true =>
      rw [if_pos (by simp [hpx]), alookup_cons, if_neg (hpr x hpx)]
      exact ih

theorem alookup_filter_eq {α : Type _} (pr : String × α → Bool)
    (l : List (String × α)) (v : String)
    (hpr : ∀ p, p.1 = v → pr p = true) :
    alookup (l.filter pr) v = alookup l v := by
  induction l with
  | nil => rfl
  | cons x rest ih =>
    rw [List.filter_cons, alookup_cons]
    by_cases hx : x.1 = v
    · rw [if_pos (by simp [hpr x hx]), alookup_cons, if_pos hx, if_pos hx]
    · rw [if_neg hx]
      cases hpx : pr x with
      | false => simpa using ih
      | true =>
        rw [if_pos (by simp [hpx]), alookup_cons, if_neg hx]
        exact ih

theorem alookup_map_fst_preserving {α β : Type _} (f : String × α → String × β)
    (hf : ∀ p, (f p).1 = p.1) (l : List (String × α)) (k : String) :
    alookup (l.map f) k = (alookup l k).map (fun v => (f (k, v)).2) := by
  induction l with
  | nil => rfl
  | cons x rest ih =>
    obtain ⟨k', v'⟩ := x
    rw [List.map_cons, alookup_cons, alookup_cons, hf]
    by_cases h : k' = k
    · subst h
      simp
    · simp [h, ih]

theorem alookup_mem_keys {α : Type _} {l : List (String × α)} {k : String}
    {x : α} (h : alookup l k = some x) : k ∈ l.map Prod.fst := by
  induction l with
  | nil => exact absurd h (by simp [alookup])
  | cons p rest ih =>
    rw [alookup_cons] at h
    by_cases hp : p.1 = k
    · exact List.mem_map.mpr ⟨p, List.mem_cons_self p rest, hp⟩
    · rw [if_neg hp] at h
      exact List.mem_cons_of_mem _ (ih h)

theorem alookup_aset_self {α : Type _} (l : List (String × α)) (k : String)
    (v : α) : alookup (aset l k v) k = some v := by
  induction l with
  | nil => simp [aset, alookup_cons]
  | cons x rest ih =>
    obtain ⟨k', v'⟩ := x
    by_cases h : k' = k
    · simp [aset, h, alookup_cons]
    · simp only [aset, if_neg h]
      rw [alookup_cons, if_neg h]
      exact ih

theorem scanUnseen_cons_mem (b : Bool) (m : QMsg) (rest : List QMsg)
    (seen : List String) (h : m.id ∈ seen) :
    scanUnseen b (m :: rest) seen = scanUnseen b rest seen := by
  rw [scanUnseen, if_pos h]

theorem scanUnseen_cons_not_mem_true (m : QMsg) (rest : List QMsg)
    (seen : List String) (h : m.id ∉ seen) :
    scanUnseen true (m :: rest) seen =
      (m :: (scanUnseen true rest (seen ++ [m.id])).1,
       (scanUnseen true rest (seen ++ [m.id])).2) := by
  rw [scanUnseen, if_neg h]
  rfl

theorem scanUnseen_cons_not_mem_false (m : QMsg) (rest : List QMsg)
    (seen : List String) (h : m.id ∉ seen) :
    scanUnseen false (m :: rest) seen =
      (m :: (scanUnseen false rest seen).1, (scanUnseen false rest seen).2) := by
  rw [scanUnseen, if_neg h]
  rfl

theorem scanUnseen_no_add (ms : List QMsg) (seen : List String) :
    scanUnseen false ms seen = (ms.filter (fun m => m.id ∉ seen), seen) := by
  induction ms with
  | nil => rfl
  | cons m rest ih =>
    by_cases h : m.id ∈ seen
    · rw [scanUnseen_cons_mem false m rest seen h, ih, List.filter_cons,
          if_neg (by simp [h])]
    · rw [scanUnseen_cons_not_mem_false m rest seen h, ih, List.filter_cons,
          if_pos (by simp [h])]

theorem scanUnseen_nodup :
    ∀ (ms : List QMsg) (seen : List String), (ms.map QMsg.id).Nodup →
      scanUnseen true ms seen =
        (ms.filter (fun m => m.id ∉ seen),
         seen ++ (ms.filter (fun m => m.id ∉ seen)).map QMsg.id) := by
  intro ms
  induction ms with
  | nil =>
    intro seen _
    simp [scanUnseen]
  | cons m rest ih =>
    intro seen hnd
    rw [List.map_cons, List.nodup_cons] at hnd
    obtain ⟨hid, hnd2⟩ := hnd
    by_cases h : m.id ∈ seen
    · rw [scanUnseen_cons_mem true m rest seen h, ih seen hnd2, List.filter_cons,
          if_neg (by simp [h])]
    · rw [scanUnseen_cons_not_mem_true m rest seen h, ih (seen ++ [m.id]) hnd2,
          List.filter_cons, if_pos (by simp [h])]
      have hcong : rest.filter (fun x => x.id ∉ seen ++ [m.id]) =
          rest.filter (fun x => x.id ∉ seen) := by
        apply List.filter_congr
        intro x hx
        have hxm : x.id ≠ m.id := fun e => hid (e ▸ List.mem_map_of_mem QMsg.id hx)
        simp [List.mem_append, hxm]
      rw [hcong]
      simp [List.append_assoc]

theorem get_messages_delete (s : Storage) (username : String)
    (ids : List String) :
    get_messages (delete_messages s username ids) username =
      (get_messages s username).filter (fun m => m.id ∉ ids) := by
  unfold delete_messages
  by_cases h : ((get_messages s username).filter (fun m => m.id ∉ ids)).length ≠
      (get_messages s username).length
  · rw [if_pos h]
    show (alookup (aset s.queues username _) username).getD [] = _
    rw [alookup_aset_self]
    rfl
  · rw [if_neg h]
    push_neg at h
    have := List.filter_length_eq_length.mp h
    symm
    apply List.filter_eq_self.mpr this

theorem handle_deliver_peek_eq (storage : Storage)
    (seen : List (String × List String)) (username : String)
    (role2 : String) (trans2 : Bool)
    (hex : user_exists storage username = true)
    (hnd : ((get_messages storage username).map QMsg.id).Nodup) :
    handle_deliver storage seen username 0 "PRIMARY" false role2 trans2 =
      ⟨((get_messages storage username).filter
          (fun m => m.id ∉ (alookup seen username).getD [])).map deliverFrame,
       { cmd := "deliver",
         body := "Delivered " ++
           toString ((get_messages storage username).filter
             (fun m => m.id ∉ (alookup seen username).getD [])).length ++
           " messages" },
       storage,
       aset seen username ((alookup seen username).getD [] ++
         ((get_messages storage username).filter
           (fun m => m.id ∉ (alookup seen username).getD [])).map QMsg.id),
       []⟩ := by
  simp only [handle_deliver, hex, not_true, if_false]
  rw [show ((0 == 0) : Bool) = true from rfl, scanUnseen_nodup _ _ hnd]
  simp [List.take_length]

theorem handle_deliver_pop_preserved_eq (storage : Storage)
    (seen : List (String × List String)) (username : String) (limit : Nat)
    (role2 : String) (trans2 : Bool)
    (hex : user_exists storage username = true) (hpos : 0 < limit)
    (hrt : role2 ≠ "PRIMARY" ∨ trans2 = true) :
    handle_deliver storage seen username limit "PRIMARY" false role2 trans2 =
      ⟨((unseenOf storage seen username).take limit).map deliverFrame,
       { cmd := "deliver",
         body := "Delivered " ++
           toString ((unseenOf storage seen username).take limit).length ++
           " messages, but server state changed - messages preserved" },
       storage, aset seen username ((alookup seen username).getD []), []⟩ := by
  have hbeq : (limit == 0) = false := by
    simp [Nat.pos_iff_ne_zero.mp hpos]
  simp only [handle_deliver, hex, not_true, if_false, hbeq]
  rw [scanUnseen_no_add]
  simp only [if_pos hpos, gt_iff_lt, hpos, if_true]
  rw [if_pos hrt]
  rfl

theorem handle_deliver_pop_empty_eq (storage : Storage)
    (seen : List (String × List String)) (username : String) (limit : Nat)
    (role2 : String) (trans2 : Bool)
    (hex : user_exists storage username = true) (hpos : 0 < limit)
    (hr : role2 = "PRIMARY") (ht : trans2 = false)
    (hempty : (unseenOf storage seen username).take limit = []) :
    handle_deliver storage seen username limit "PRIMARY" false role2 trans2 =
      ⟨[], { cmd := "deliver", body := "Delivered 0 messages" },
       storage, aset seen username ((alookup seen username).getD []), []⟩ := by
  have hbeq : (limit == 0) = false := by
    simp [Nat.pos_iff_ne_zero.mp hpos]
  have hempty2 : List.take limit ((get_messages storage username).filter
      (fun m => m.id ∉ (alookup seen username).getD [])) = [] := hempty
  simp only [handle_deliver, hex, not_true, if_false, hbeq]
  rw [scanUnseen_no_add]
  dsimp only
  simp only [gt_iff_lt, hpos, if_true]
  simp only [hempty2, List.map_nil]
  simp [hr, ht]
  rfl

theorem handle_deliver_pop_commit_eq (storage : Storage)
    (seen : List (String × List String)) (username : String) (limit : Nat)
    (role2 : String) (trans2 : Bool)
    (hex : user_exists storage username = true) (hpos : 0 < limit)
    (hr : role2 = "PRIMARY") (ht : trans2 = false)
    (hne : (unseenOf storage seen username).take limit ≠ []) :
    handle_deliver storage seen username limit "PRIMARY" false role2 trans2 =
      ⟨((unseenOf storage seen username).take limit).map deliverFrame,
       { cmd := "deliver",
         body := "Delivered " ++
           toString ((unseenOf storage seen username).take limit).length ++
           " messages" },
       delete_messages storage username
         (((unseenOf storage seen username).take limit).map QMsg.id),
       aset seen username ((alookup seen username).getD [] ++
         ((unseenOf storage seen username).take limit).map QMsg.id),
       [.broadcast "DELETE_MESSAGES", .localApply "DELETE_MESSAGES"]⟩ := by
  have hne2 : List.take limit ((get_messages storage username).filter
      (fun m => m.id ∉ (alookup seen username).getD [])) ≠ [] := hne
  have hbeq : (limit == 0) = false := by
    simp [Nat.pos_iff_ne_zero.mp hpos]
  have hcond1 : ¬(role2 ≠ "PRIMARY" ∨ trans2 = true) := by
    simp [hr, ht]
  have hcond2 : ¬((List.take limit ((get_messages storage username).filter
      (fun m => m.id ∉ (alookup seen username).getD []))).map
        (fun m => m.id) = []) := by
    simp only [List.map_eq_nil_iff]
    exact hne2
  simp only [handle_deliver, hex, not_true, if_false, hbeq]
  rw [scanUnseen_no_add]
  dsimp only
  simp only [gt_iff_lt, hpos, if_true]
  rw [if_neg hcond1, if_neg hcond2]
  rfl

/-- C1: the round-trip claim fails at `msg_ids = None` for both encodings.
Both encoders serialize `None` as the empty JSON list and both decoders read
it back as the empty list (the JSON object always carries the `msg_ids` key;
the binary ids payload `[]` has length 2 > 0), so `decode(encode(M))` yields
`msg_ids = []`, not `None` — contradicting the spec and the repository's own
protocol tests, whose default-constructed messages have `msg_ids = None`. -/
theorem c1_roundtrip_msg_ids_none_bug :
    JSONProtocol.decode (JSONProtocol.encode c1msg) =
      some { c1msg with msg_ids := some [] } ∧
    JSONProtocol.decode (JSONProtocol.encode c1msg) ≠ some c1msg ∧
    (CustomProtocol.encode c1msg).bind CustomProtocol.decode =
      some { c1msg with msg_ids := some [] } ∧
    (CustomProtocol.encode c1msg).bind CustomProtocol.decode ≠ some c1msg := by
  decide

/-- C2: applying the same `SYNC_DATA{MESSAGES}` payload twice duplicates the
message instead of leaving the store unchanged: `_handle_sync_data` checks
the synced id against the local queue, but inserts through
`storage.add_message`, which stores the message under a freshly generated
uuid — so the synced id is never present locally and every re-application
inserts another copy. -/
theorem c2_sync_data_not_idempotent_bug :
    handle_sync_data (handle_sync_data c2store c2sync) c2sync ≠
      handle_sync_data c2store c2sync ∧
    get_messages (handle_sync_data c2store c2sync) "bob" =
      [⟨freshId 0, "alice", "hi"⟩] ∧
    get_messages (handle_sync_data (handle_sync_data c2store c2sync) c2sync) "bob" =
      [⟨freshId 0, "alice", "hi"⟩, ⟨freshId 1, "alice", "hi"⟩] := by
  decide

/-- C8: `handle_logoff` with no active session raises `UnboundLocalError`
(the embedded handler returns `none`, i.e. no reply frame at all) instead of
returning an `error=true` reply; with an active session it unbinds the
session and replies ok. -/
theorem c8_logoff_no_session_raises :
    handle_logoff [] "alice" = none ∧
    handle_logoff ["alice"] "alice" =
      some ({ cmd := "logoff", body := "Logged out successfully" }, []) := by
  decide

/-- C10: `wait_for_acks` returns true exactly when the backups list is
empty; it takes no acknowledgment input (see its definition), so with any
registered backup it returns false regardless of peer responses. -/
theorem c10_wait_for_acks_iff_no_backups :
    ∀ backups : List String, wait_for_acks backups = backups.isEmpty := by
  intro backups
  cases backups with
  | nil => rfl
  | cons b bs =>
    simp only [wait_for_acks, List.isEmpty, List.length_cons]
    simp only [Bool.or_eq_false_iff, decide_eq_false_iff_not]
    omega

/-- C3: `delete_user u` removes `u` from the user table, destroys `u`'s own
queue, and for every remaining user `v` the resulting queue is the old one
with exactly the messages whose sender is `u` removed — all other messages
are retained in their original order. -/
theorem c3_delete_user_cascade (s : Storage) (u : String) :
    alookup (delete_user s u).users u = none ∧
    alookup (delete_user s u).queues u = none ∧
    ∀ v, alookup (delete_user s u).users v ≠ none →
      get_messages (delete_user s u) v =
        (get_messages s v).filter (fun m => m.sender ≠ u) := by
  have hne : ∀ p : String × String, (decide (p.1 ≠ u) : Bool) = true → p.1 ≠ u :=
    fun p hp => by simpa using hp
  have hneq : ∀ p : String × List QMsg, (decide (p.1 ≠ u) : Bool) = true → p.1 ≠ u :=
    fun p hp => by simpa using hp
  have hf : ∀ p : String × List QMsg,
      ((fun p : String × List QMsg =>
        if p.1 ∈ (s.users.filter (fun q => q.1 ≠ u)).map Prod.fst then
          (p.1, p.2.filter (fun m => m.sender ≠ u))
        else p) p).1 = p.1 := by
    intro p
    dsimp only
    by_cases h : p.1 ∈ (s.users.filter (fun q => q.1 ≠ u)).map Prod.fst
    · rw [if_pos h]
    · rw [if_neg h]
  refine ⟨alookup_filter_none _ s.users u hne, ?_, ?_⟩
  · show alookup (List.map _ (s.queues.filter (fun p => p.1 ≠ u))) u = none
    rw [alookup_map_fst_preserving _ hf, alookup_filter_none _ _ _ hneq]
    rfl
  · intro v hv
    have hvu : v ≠ u := by
      intro h
      exact hv (h ▸ alookup_filter_none _ s.users u hne)
    have hvkeys : v ∈ (s.users.filter (fun q => q.1 ≠ u)).map Prod.fst := by
      rcases ho : alookup (delete_user s u).users v with _ | pw
      · exact absurd ho hv
      · exact alookup_mem_keys ho
    show ((alookup (List.map _ (s.queues.filter (fun p => p.1 ≠ u))) v).getD []) = _
    rw [alookup_map_fst_preserving _ hf,
        alookup_filter_eq _ _ _ (fun p hp => by simp [hp, hvu])]
    rcases hq : alookup s.queues v with _ | ms
    · simp [get_messages, hq]
    · simp only [Option.map_some', Option.getD_some]
      rw [if_pos hvkeys, get_messages, hq]
      rfl

/-- Witness for C3 at a concrete store. -/
theorem c3_delete_user_cascade_witness :
    alookup (delete_user c3store "alice").users "alice" = none ∧
    get_messages (delete_user c3store "alice") "bob" =
      (get_messages c3store "bob").filter (fun m => m.sender ≠ "alice") :=
  ⟨(c3_delete_user_cascade c3store "alice").1,
   (c3_delete_user_cascade c3store "alice").2.2 "bob" (by decide)⟩

/-- C7 counterexample: a login for a username that already has an active
session (`alice` is in `current_users`) succeeds with an `error=false` reply
— `handle_login` never consults `current_users`, so the claimed
"no active session" precondition does not exist in the code. -/
theorem c7_login_counterexample :
    "alice" ∈ ["alice"] ∧
    handle_login c7store c7store.users ["alice"] "alice" "pw" =
      some ({ cmd := "login",
              body := "Login successful. You have 0 unread messages.",
              «to» := "alice" }, ["alice"]) := by
  decide

/-- C7 amended: on a PRIMARY that is not transitioning, `login` succeeds
(session bound, reply `login` with `to=username` and the unread count in the
body) if and only if the username is present and the password matches; an
existing active session is simply rebound, not rejected. All other cases
reply with `error=true`. Stated with the in-memory user map equal to the
store's user table (the invariant the server maintains). -/
theorem c7_login_amended (storage : Storage) (current : List String)
    (username password : String) :
    (alookup storage.users username = some password →
      handle_login storage storage.users current username password =
        some ({ cmd := "login",
                body := "Login successful. You have " ++
                        toString (get_messages storage username).length ++
                        " unread messages.",
                «to» := username },
              if username ∈ current then current else current ++ [username])) ∧
    (alookup storage.users username ≠ some password →
      handle_login storage storage.users current username password =
        some ({ cmd := "login", body := "Username/Password error",
                error := true }, current)) := by
  constructor
  · intro h
    simp [handle_login, user_exists, h]
  · intro h
    rcases hu : alookup storage.users username with _ | pw
    · simp [handle_login, user_exists, hu]
    · have hne : pw ≠ password := by
        intro e
        exact h (by rw [hu, e])
      simp [handle_login, user_exists, hu, hne]

/-- Witness for C7 at a concrete store, discharging both hypotheses. -/
theorem c7_login_amended_witness :
    handle_login c7store c7store.users [] "alice" "pw" =
      some ({ cmd := "login",
              body := "Login successful. You have 0 unread messages.",
              «to» := "alice" }, ["alice"]) ∧
    handle_login c7store c7store.users [] "alice" "wrong" =
      some ({ cmd := "login", body := "Username/Password error",
              error := true }, []) := by
  constructor
  · have h := (c7_login_amended c7store [] "alice" "pw").1 (by decide)
    simpa using h
  · have h := (c7_login_amended c7store [] "alice" "wrong").2 (by decide)
    simpa using h

/-- C4 counterexample: the "seen" record is not per-session and does not die
with the session: after a peek and the session's teardown (`session_cleanup`),
the server-wide record still maps `bob` to the seen id, and a second session's
first peek emits no frames even though the never-delivered message is still
queued - under the claim the fresh session would re-observe it. -/
theorem c4_peek_counterexample :
    (handle_deliver c4store [] "bob" 0 "PRIMARY" false "PRIMARY" false).emitted =
      [deliverFrame ⟨"m1", "alice", "hi"⟩] ∧
    get_messages (handle_deliver c4store [] "bob" 0 "PRIMARY" false "PRIMARY" false).storage "bob" =
      [⟨"m1", "alice", "hi"⟩] ∧
    session_cleanup ["bob"]
      (handle_deliver c4store [] "bob" 0 "PRIMARY" false "PRIMARY" false).seen "bob" =
      ([], [("bob", ["m1"])]) ∧
    (handle_deliver
      (handle_deliver c4store [] "bob" 0 "PRIMARY" false "PRIMARY" false).storage
      (handle_deliver c4store [] "bob" 0 "PRIMARY" false "PRIMARY" false).seen
      "bob" 0 "PRIMARY" false "PRIMARY" false).emitted = [] := by
  decide

/-- C4 amended: on a PRIMARY that is not transitioning, a `deliver` with
`limit == 0` emits exactly the queued messages whose ids are not in the
requesting username's server-wide seen record (in queue order), does not
mutate the store and performs no replication events; a second limit-0
`deliver` emits nothing new. The seen record is keyed by username on the
server object and survives session teardown (it is not per-session). -/
theorem c4_peek_amended (storage : Storage) (seen : List (String × List String))
    (username : String) (current : List String) (role2 : String) (trans2 : Bool)
    (role2b : String) (trans2b : Bool)
    (hex : user_exists storage username = true)
    (hnd : ((get_messages storage username).map QMsg.id).Nodup) :
    (handle_deliver storage seen username 0 "PRIMARY" false role2 trans2).emitted =
      ((get_messages storage username).filter
        (fun m => m.id ∉ (alookup seen username).getD [])).map deliverFrame ∧
    (handle_deliver storage seen username 0 "PRIMARY" false role2 trans2).storage = storage ∧
    (handle_deliver storage seen username 0 "PRIMARY" false role2 trans2).events = [] ∧
    session_cleanup current
      (handle_deliver storage seen username 0 "PRIMARY" false role2 trans2).seen username =
      (current.filter (fun u => u ≠ username),
       (handle_deliver storage seen username 0 "PRIMARY" false role2 trans2).seen) ∧
    (handle_deliver storage
        (handle_deliver storage seen username 0 "PRIMARY" false role2 trans2).seen
        username 0 "PRIMARY" false role2b trans2b).emitted = [] := by
  have h1 := handle_deliver_peek_eq storage seen username role2 trans2 hex hnd
  refine ⟨by rw [h1], by rw [h1], by rw [h1], rfl, ?_⟩
  have h2 := handle_deliver_peek_eq storage
      (handle_deliver storage seen username 0 "PRIMARY" false role2 trans2).seen
      username role2b trans2b hex hnd
  rw [h2, h1]
  simp only [alookup_aset_self, Option.getD_some]
  have hall : ∀ m ∈ get_messages storage username,
      m.id ∈ (alookup seen username).getD [] ++
        ((get_messages storage username).filter
          (fun m => m.id ∉ (alookup seen username).getD [])).map QMsg.id := by
    intro m hm
    by_cases hs : m.id ∈ (alookup seen username).getD []
    · exact List.mem_append_left _ hs
    · refine List.mem_append_right _ ?_
      exact List.mem_map_of_mem QMsg.id (List.mem_filter.mpr ⟨hm, by simp [hs]⟩)
  rw [List.filter_eq_nil_iff.mpr
    (fun a ha hdec => absurd (hall a ha) (of_decide_eq_true hdec))]
  rfl

/-- Witness for C4 at a concrete store. -/
theorem c4_peek_amended_witness :
    (handle_deliver c4store [] "bob" 0 "PRIMARY" false "PRIMARY" false).storage = c4store ∧
    (handle_deliver c4store
      (handle_deliver c4store [] "bob" 0 "PRIMARY" false "PRIMARY" false).seen
      "bob" 0 "PRIMARY" false "PRIMARY" false).emitted = [] := by
  have h := c4_peek_amended c4store [] "bob" [] "PRIMARY" false "PRIMARY" false
    (by decide) (by decide)
  exact ⟨h.2.1, h.2.2.2.2⟩

/-- C5: on a PRIMARY that is not transitioning, a `deliver` with
`limit = N > 0` emits the first `min(N, number of unseen)` unseen messages in
queue order; when the re-read state is still PRIMARY and not transitioning
they are removed from the stored queue via a broadcast `DELETE_MESSAGES`
followed by the local deletion, and the terminal reply reports the delivered
count; otherwise the deletion is skipped, no replication event happens, and
the reply notes that messages were preserved. -/
theorem c5_deliver_pop (storage : Storage) (seen : List (String × List String))
    (username : String) (limit : Nat) (role2 : String) (trans2 : Bool)
    (hex : user_exists storage username = true) (hpos : 0 < limit) :
    (handle_deliver storage seen username limit "PRIMARY" false role2 trans2).emitted =
      ((unseenOf storage seen username).take limit).map deliverFrame ∧
    (handle_deliver storage seen username limit "PRIMARY" false role2 trans2).emitted.length =
      min limit (unseenOf storage seen username).length ∧
    (role2 = "PRIMARY" → trans2 = false →
      get_messages (handle_deliver storage seen username limit "PRIMARY" false role2 trans2).storage
          username =
        (get_messages storage username).filter
          (fun m => m.id ∉ ((unseenOf storage seen username).take limit).map QMsg.id) ∧
      (handle_deliver storage seen username limit "PRIMARY" false role2 trans2).events =
        (if (unseenOf storage seen username).take limit = [] then []
         else [RepEvent.broadcast "DELETE_MESSAGES", RepEvent.localApply "DELETE_MESSAGES"]) ∧
      (handle_deliver storage seen username limit "PRIMARY" false role2 trans2).reply =
        { cmd := "deliver",
          body := "Delivered " ++
            toString ((unseenOf storage seen username).take limit).length ++ " messages" }) ∧
    (role2 ≠ "PRIMARY" ∨ trans2 = true →
      (handle_deliver storage seen username limit "PRIMARY" false role2 trans2).storage = storage ∧
      (handle_deliver storage seen username limit "PRIMARY" false role2 trans2).events = [] ∧
      (handle_deliver storage seen username limit "PRIMARY" false role2 trans2).reply =
        { cmd := "deliver",
          body := "Delivered " ++
            toString ((unseenOf storage seen username).take limit).length ++
            " messages, but server state changed - messages preserved" }) := by
  by_cases hrt : role2 ≠ "PRIMARY" ∨ trans2 = true
  · have h := handle_deliver_pop_preserved_eq storage seen username limit role2 trans2
      hex hpos hrt
    refine ⟨by rw [h], ?_, ?_, ?_⟩
    · rw [h]
      simp [List.length_take]
    · intro hr ht
      rcases hrt with h1 | h1
      · exact absurd hr h1
      · rw [ht] at h1
        cases h1
    · intro _
      exact ⟨by rw [h], by rw [h], by rw [h]⟩
  · have hr : role2 = "PRIMARY" := by
      by_contra hc
      exact hrt (Or.inl hc)
    have ht : trans2 = false := by
      cases htv : trans2 with
      | false => rfl
      | true => exact absurd (Or.inr htv) hrt
    by_cases hempty : (unseenOf storage seen username).take limit = []
    · have h := handle_deliver_pop_empty_eq storage seen username limit role2 trans2
        hex hpos hr ht hempty
      have hun : unseenOf storage seen username = [] := by
        rcases List.take_eq_nil_iff.mp hempty with h0 | h0
        · exact absurd h0 (Nat.pos_iff_ne_zero.mp hpos)
        · exact h0
      refine ⟨?_, ?_, ?_, ?_⟩
      · rw [h, hempty]
        rfl
      · rw [h, hun]
        simp
      · intro _ _
        refine ⟨?_, ?_, ?_⟩
        · rw [h, hempty]
          simp
        · rw [h, if_pos hempty]
        · rw [h, hempty]
          rfl
      · intro hco
        exact absurd hco hrt
    · have h := handle_deliver_pop_commit_eq storage seen username limit role2 trans2
        hex hpos hr ht hempty
      refine ⟨by rw [h], ?_, ?_, ?_⟩
      · rw [h]
        simp [List.length_take]
      · intro _ _
        refine ⟨?_, ?_, ?_⟩
        · rw [h]
          exact get_messages_delete storage username _
        · rw [h, if_neg hempty]
        · rw [h]
      · intro hco
        exact absurd hco hrt

/-- Witness for C5 at a concrete three-message queue with limit 2. -/
theorem c5_deliver_pop_witness :
    (handle_deliver c5store [] "bob" 2 "PRIMARY" false "PRIMARY" false).emitted =
      [deliverFrame ⟨"m1", "alice", "a"⟩, deliverFrame ⟨"m2", "alice", "b"⟩] ∧
    get_messages
      (handle_deliver c5store [] "bob" 2 "PRIMARY" false "PRIMARY" false).storage "bob" =
      [⟨"m3", "alice", "c"⟩] := by
  have h := c5_deliver_pop c5store [] "bob" 2 "PRIMARY" false (by decide) (by decide)
  exact ⟨h.1.trans (by decide), (h.2.2.1 rfl rfl).1.trans (by decide)⟩

theorem broadcastAfterApply_nil : broadcastAfterApply [] := by
  intro pre post t h
  exact absurd h (by simp)

theorem broadcastAfterApply_apply_head (t : String) (rest : List RepEvent)
    (h : ∀ e ∈ rest, ∀ tb, e = RepEvent.broadcast tb → tb = t) :
    broadcastAfterApply (RepEvent.localApply t :: rest) := by
  intro pre post tb heq
  rcases pre with _ | ⟨e, pre⟩
  · simp at heq
  · rw [List.cons_append] at heq
    injection heq with he hr
    have hb : RepEvent.broadcast tb ∈ rest := by
      rw [hr]
      exact List.mem_append_right _ (List.mem_cons_self _ _)
    rw [h _ hb tb rfl, he]
    exact List.mem_cons_self _ _


/-- C6 counterexample: `handle_send` on the PRIMARY with an offline
recipient broadcasts `ADD_MESSAGE` before the local store applies it: its
event trace is `[broadcast, localApply]`, violating the claimed
broadcast-after-apply ordering. -/
theorem c6_counterexample :
    ¬ broadcastAfterApply
      (handle_send c6store [] "alice" "bob" "hi" false "PRIMARY" true).events := by
  intro h
  have heq : (handle_send c6store [] "alice" "bob" "hi" false "PRIMARY" true).events =
      [] ++ RepEvent.broadcast "ADD_MESSAGE" :: [RepEvent.localApply "ADD_MESSAGE"] := by
    decide
  exact absurd (h [] [RepEvent.localApply "ADD_MESSAGE"] "ADD_MESSAGE" heq)
    (List.not_mem_nil _)

/-- C6 amended: the broadcast-after-local-apply ordering holds for
`ADD_USER` (`handle_create`) and `DELETE_USER` (`handle_delete`), but for
`ADD_MESSAGE` and `DELETE_MESSAGES` the broadcast precedes the local apply:
`handle_send` broadcasts first and stores only for an offline recipient or a
failed inline write (a successful inline delivery never stores locally), and
`handle_delete_messages` broadcasts before the final state check and the
local deletion. -/
theorem c6_amended :
    (∀ (storage : Storage) (users : List (String × String)) (current : List String)
        (username password role : String),
      broadcastAfterApply
        (handle_create storage users current username password role).events) ∧
    (∀ (storage : Storage) (users : List (String × String)) (current : List String)
        (username : String) (trans : Bool) (role role2 : String) (trans2 : Bool),
      broadcastAfterApply
        (handle_delete storage users current username trans role role2 trans2).events) ∧
    (∀ (storage : Storage) (current : List String)
        (username recipient content : String) (inlineOk : Bool),
      content ≠ "" → recipient ≠ "" → user_exists storage recipient = true →
      recipient ∉ current →
      (handle_send storage current username recipient content false "PRIMARY" inlineOk).events =
        [RepEvent.broadcast "ADD_MESSAGE", RepEvent.localApply "ADD_MESSAGE"]) ∧
    (∀ (storage : Storage) (current : List String)
        (username recipient content : String),
      content ≠ "" → recipient ≠ "" → user_exists storage recipient = true →
      recipient ∈ current →
      (handle_send storage current username recipient content false "PRIMARY" true).events =
        [RepEvent.broadcast "ADD_MESSAGE"]) ∧
    (∀ (storage : Storage) (username : String) (ids : List String)
        (role2 : String) (trans2 : Bool), ids ≠ [] →
      (handle_delete_messages storage username (some ids) "PRIMARY" false role2 trans2).2.2 =
        RepEvent.broadcast "DELETE_MESSAGES" ::
          (if role2 = "PRIMARY" ∧ trans2 = false
           then [RepEvent.localApply "DELETE_MESSAGES"] else [])) := by
  refine ⟨?_, ?_, ?_, ?_, ?_⟩
  · intro storage users current username password role
    by_cases hex : user_exists storage username = true
    · simp only [handle_create, hex, if_true]
      exact broadcastAfterApply_nil
    · simp only [handle_create, hex, if_false]
      apply broadcastAfterApply_apply_head
      intro e he tb heb
      by_cases hrole : role = "PRIMARY"
      · rw [if_pos hrole] at he
        rw [List.mem_singleton.mp he] at heb
        injection heb with h1
        exact h1.symm
      · rw [if_neg hrole] at he
        cases he
  · intro storage users current username trans role role2 trans2
    unfold handle_delete
    by_cases hex : user_exists storage username = true
    · rw [if_neg (not_not_intro hex)]
      by_cases htr : trans = true
      · rw [if_pos htr]
        exact broadcastAfterApply_nil
      · rw [if_neg htr]
        by_cases hrole : role ≠ "PRIMARY"
        · rw [if_pos hrole]
          exact broadcastAfterApply_nil
        · rw [if_neg hrole]
          apply broadcastAfterApply_apply_head
          intro e he tb heb
          by_cases hcond : role2 = "PRIMARY" ∧ ¬ trans2 = true
          · rw [if_pos hcond] at he
            rw [List.mem_singleton.mp he] at heb
            injection heb with hx
            exact hx.symm
          · rw [if_neg hcond] at he
            cases he
    · rw [if_pos hex]
      exact broadcastAfterApply_nil
  · intro storage current username recipient content inlineOk hc hrec hex hnot
    simp [handle_send, hc, hrec, hex, hnot]
  · intro storage current username recipient content hc hrec hex hmem
    simp [handle_send, hc, hrec, hex, hmem]
  · intro storage username ids role2 trans2 hid
    by_cases hcond : role2 = "PRIMARY" ∧ trans2 = false
    · rw [if_pos hcond]
      simp [handle_delete_messages, hid, hcond.1, hcond.2]
    · rw [if_neg hcond]
      have hor : role2 ≠ "PRIMARY" ∨ trans2 = true := by
        by_cases hr2 : role2 = "PRIMARY"
        · right
          cases htv : trans2 with
          | true => rfl
          | false => exact absurd ⟨hr2, htv⟩ hcond
        · exact Or.inl hr2
      simp [handle_delete_messages, hid, hor]

/-- Witness for C6 at concrete inputs. -/
theorem c6_amended_witness :
    broadcastAfterApply (handle_create c6store [] [] "carol" "pw" "PRIMARY").events ∧
    (handle_send c6store [] "alice" "bob" "hi" false "PRIMARY" false).events =
      [RepEvent.broadcast "ADD_MESSAGE", RepEvent.localApply "ADD_MESSAGE"] :=
  ⟨c6_amended.1 c6store [] [] "carol" "pw" "PRIMARY",
   c6_amended.2.2.1 c6store [] "alice" "bob" "hi" false (by decide) (by decide)
     (by decide) (by simp)⟩

/-- C9 counterexample: a flush failure re-queues the in-flight frame at the
tail (`queue.put`), not the head: flushing `[m1, m2]` when sending `m1`
fails leaves the queue as `[m2, m1]`, so FIFO order is not preserved. -/
theorem c9_requeue_counterexample :
    process_queued (fun m => m.cmd != "a") [c9m1, c9m2] = ([], [c9m2, c9m1]) ∧
    ([c9m2, c9m1] : List Message) ≠ [c9m1, c9m2] := by
  decide

theorem process_queued_all_ok (f : Message → Bool) :
    ∀ q : List Message, (∀ x ∈ q, f x = true) → process_queued f q = (q, []) := by
  intro q
  induction q with
  | nil =>
    intro _
    rfl
  | cons m rest ih =>
    intro h
    rw [process_queued, if_pos (h m (List.mem_cons_self m rest)),
        ih (fun x hx => h x (List.mem_cons_of_mem _ hx))]

theorem process_queued_first_fail (f : Message → Bool) (bad : Message)
    (rest : List Message) (hb : f bad = false) :
    ∀ good : List Message, (∀ x ∈ good, f x = true) →
      process_queued f (good ++ bad :: rest) = (good, rest ++ [bad]) := by
  intro good
  induction good with
  | nil =>
    intro _
    rw [List.nil_append, process_queued, if_neg (by simp [hb])]
  | cons g gs ih =>
    intro h
    rw [List.cons_append, process_queued,
        if_pos (h g (List.mem_cons_self g gs)),
        ih (fun x hx => h x (List.mem_cons_of_mem _ hx))]

/-- C9 amended: `send_msg` returns true and writes the frame when connected
and the write succeeds; when not connected it appends the message to the
tail of the FIFO queue, attempts a reconnect, and returns false; a
successful reconnect flushes the queue in FIFO order before new traffic; but
a flush failure re-queues the in-flight frame at the tail of the queue (the
failed frame moves behind later-queued frames). -/
theorem c9_send_msg_amended :
    (∀ (c : RClient) (m : Message) (canC : Bool) (f : Message → Bool),
      c.connected = true → f m = true →
      send_msg c m canC f = (true, c, [m])) ∧
    (∀ (c : RClient) (m : Message) (f : Message → Bool),
      c.connected = false →
      send_msg c m false f = (false, ⟨false, c.queue ++ [m]⟩, [])) ∧
    (∀ (c : RClient) (m : Message) (f : Message → Bool),
      c.connected = false → (∀ x, f x = true) →
      send_msg c m true f = (false, ⟨true, []⟩, c.queue ++ [m])) ∧
    (∀ (f : Message → Bool) (good : List Message) (bad : Message)
        (rest : List Message),
      (∀ x ∈ good, f x = true) → f bad = false →
      process_queued f (good ++ bad :: rest) = (good, rest ++ [bad])) := by
  refine ⟨?_, ?_, ?_, ?_⟩
  · intro c m canC f hc hf
    simp [send_msg, hc, hf]
  · intro c m f hc
    simp [send_msg, connect, hc]
  · intro c m f hc hall
    simp only [send_msg, hc, Bool.false_eq_true, not_false_eq_true, if_true]
    rw [connect]
    rw [process_queued_all_ok f (c.queue ++ [m]) (fun x _ => hall x)]
    simp
  · intro f good bad rest hg hb
    exact process_queued_first_fail f bad rest hb good hg

/-- Witness for C9 at concrete clients and queues. -/
theorem c9_send_msg_amended_witness :
    send_msg ⟨true, []⟩ c9m2 true (fun m => m.cmd != "a") =
      (true, ⟨true, []⟩, [c9m2]) ∧
    send_msg ⟨false, [c9m2]⟩ c9m1 false (fun _ => true) =
      (false, ⟨false, [c9m2, c9m1]⟩, []) ∧
    send_msg ⟨false, [c9m1]⟩ c9m2 true (fun _ => true) =
      (false, ⟨true, []⟩, [c9m1, c9m2]) ∧
    process_queued (fun m => m.cmd != "a") ([c9m2] ++ c9m1 :: []) =
      ([c9m2], [] ++ [c9m1]) :=
  ⟨c9_send_msg_amended.1 ⟨true, []⟩ c9m2 true (fun m => m.cmd != "a") rfl (by decide),
   c9_send_msg_amended.2.1 ⟨false, [c9m2]⟩ c9m1 (fun _ => true) rfl,
   c9_send_msg_amended.2.2.1 ⟨false, [c9m1]⟩ c9m2 (fun _ => true) rfl (fun _ => rfl),
   c9_send_msg_amended.2.2.2 (fun m => m.cmd != "a") [c9m2] c9m1 []
     (by decide) (by decide)⟩

end Chat
